import Mathlib

/-!
Shallow embedding of the inmate-tracker synchronization engine (src/main.py).

The pipeline: two Playwright-based source adapters scrape county jail
listings, the results are concatenated into one batch, the batch is
reconciled against a persisted ledger (`database.json`), and on a
non-empty batch three output files are written in order: the snapshot
(`current_inmates.json`), the ledger (`database.json`) and run metadata
(`metadata.json`).

Python dictionaries are modelled as association lists with first-match
lookup and append-at-end insertion (Python dicts preserve insertion
order and insert new keys at the end).  File contents are modelled at
the parse level: the ledger file is either absent, unparseable JSON, or
bytes that parse to a ledger value; `json.dump`/`json.load` (external
library calls) are modelled as the identity on the parsed value.
Strings are treated character-wise; Python's single-character
`str.replace` is a map/filter over characters, and `re.sub` with the
class `[^A-Z0-9_]` is a character filter.  (One-to-many Unicode
upcasing such as `ß → SS` is outside the model; it affects no claim.)
-/

/-- Test for the character class `[A-Z0-9_]` of the `re.sub` call in
`normalize_name` (src/main.py line 22). -/
def isAllowedChar (c : Char) : Bool :=
  (65 ≤ c.toNat && c.toNat ≤ 90) || (48 ≤ c.toNat && c.toNat ≤ 57) || c == '_'

/-- Embedding of `normalize_name` (src/main.py lines 21-22):
`re.sub(r'[^A-Z0-9_]', '', name.upper().replace(',', '').replace(' ', '_'))`.
Upper-cases every character, drops every comma, maps every space to an
underscore, then keeps only the characters in `[A-Z0-9_]`. -/
def normalize_name (name : String) : String :=
  String.mk ((((name.data.map Char.toUpper).filter
    (fun c => !(c == ','))).map
    (fun c => if c == ' ' then '_' else c)).filter isAllowedChar)

/-- Embedding of `generate_inmate_id` (src/main.py lines 24-25):
`f"{normalize_name(name)}_{county}"`. -/
def generate_inmate_id (name county : String) : String :=
  normalize_name name ++ "_" ++ county

/-- One inmate record, as built by the scrapers (src/main.py lines 52-57
and 87-92).  The scrapers build the dictionary without an `isNew` key;
the reconcile loop adds `isNew` later, so the field is an `Option`
defaulting to `none`. -/
structure Inmate where
  inmateId : String
  name : String
  imageUrl : String
  county : String
  isNew : Option Bool := none
deriving DecidableEq

/-- The in-memory ledger (`master_db`): a Python dict keyed by inmate id,
modelled as an association list with first-match lookup. -/
abbrev Ledger := List (String × Inmate)

/-- Python dict lookup / `in`-membership: the (unique) binding of `k`,
modelled as first-match search. -/
def dbLookup (db : Ledger) (k : String) : Option Inmate :=
  match db with
  | [] => none
  | (k', v) :: rest => if k' = k then some v else dbLookup rest k

/-- Python-style split on a single character: `s.split(c)`, keeping empty
fragments (`''.split('/') == ['']`, `'a//b'.split('/') == ['a','','b']`).
Always returns a non-empty list of groups. -/
def splitOnChar (sep : Char) : List Char → List (List Char)
  | [] => [[]]
  | c :: cs =>
    if c = sep then [] :: splitOnChar sep cs
    else
      match splitOnChar sep cs with
      | [] => [[c]]
      | g :: gs => (c :: g) :: gs

/-- Join a list of groups with a single separator character between
consecutive groups (Python's `sep.join(groups)`). -/
def joinWith (sep : Char) : List (List Char) → List Char
  | [] => []
  | [g] => g
  | g :: gs => g ++ sep :: joinWith sep gs

/-- The last fragment of a `/`-split, as in
`details_link.split('/')[-1]` (src/main.py line 49). -/
def lastSegment (s : String) : String :=
  String.mk ((splitOnChar '/' s.data).getLastD [])

/-- The `<a>` anchor inside the `<h2>` name tag of a Crawford County
listing block, carrying its `href` attribute (src/main.py line 48). -/
structure CrawAnchor where
  href : String
deriving DecidableEq

/-- The `<h2>` name tag of a Crawford County listing block: its stripped
text and the anchor found inside it, if any (src/main.py lines 45-47). -/
structure CrawNameTag where
  text : String
  anchor : Option CrawAnchor
deriving DecidableEq

/-- One `div.inmate-single` block of the Crawford County page; `nameTag`
is `none` when `block.find('h2')` returns `None`. -/
structure CrawBlock where
  nameTag : Option CrawNameTag
deriving DecidableEq

/-- Outcome of navigating to the Crawford County page inside the `try`
of `scrape_crawford_county_playwright`: the parsed listing blocks, a
Playwright timeout (`PlaywrightTimeoutError`), or any other exception. -/
inductive CrawPage where
  | loaded (blocks : List CrawBlock)
  | timeout
  | error
deriving DecidableEq

/-- One `<tr>` row of the Sebastian County inmate table: the stripped
text of the `td.col-md-4` name cell if present, and the `src` of the
first `<img>` if present (src/main.py lines 82-86). -/
structure SebRow where
  nameCell : Option String
  imgSrc : Option String
deriving DecidableEq

/-- Outcome of navigating to the Sebastian County page inside the `try`
of `scrape_sebastian_county_playwright`. -/
inductive SebPage where
  | loaded (rows : List SebRow)
  | timeout
  | error
deriving DecidableEq

/-- Embedding of `scrape_crawford_county_playwright` (src/main.py lines
29-63).  A timeout or any other exception is caught and the records
collected so far (none, since navigation precedes parsing) are
returned; a page with no blocks returns `[]`; otherwise each block with
an `<h2>` containing an `<a>` yields one record. -/
def scrape_crawford_county_playwright : CrawPage → List Inmate
  | .timeout => []
  | .error => []
  | .loaded blocks =>
    if blocks.isEmpty then []
    else blocks.filterMap (fun block =>
      match block.nameTag with
      | none => none
      | some tag =>
        match tag.anchor with
        | none => none
        | some a =>
          some { inmateId := generate_inmate_id tag.text "crawford"
                 name := tag.text
                 imageUrl := "https://inmates.crawfordcountysheriff.org/photos/"
                   ++ lastSegment a.href ++ ".jpg"
                 county := "crawford" })

/-- Embedding of `scrape_sebastian_county_playwright` (src/main.py lines
65-98).  Failures are caught as in the Crawford scraper; each row with
a name cell yields one record, with a placeholder image URL when the
row has no `<img>`. -/
def scrape_sebastian_county_playwright : SebPage → List Inmate
  | .timeout => []
  | .error => []
  | .loaded rows =>
    if rows.isEmpty then []
    else rows.filterMap (fun row =>
      match row.nameCell with
      | none => none
      | some name =>
        some { inmateId := generate_inmate_id name "sebastian"
               name := name
               imageUrl :=
                 match row.imgSrc with
                 | some src =>
                   "https://inmate.sebastiancountyar.gov/NewWorld.InmateInquiry/" ++ src
                 | none => "No Image"
               county := "sebastian" })

/-- The collection phase of `__main__` (src/main.py lines 122-128):
`scraped_inmates.extend(...crawford...); scraped_inmates.extend(...sebastian...)`. -/
def collectAll (cp : CrawPage) (sp : SebPage) : List Inmate :=
  scrape_crawford_county_playwright cp ++ scrape_sebastian_county_playwright sp

/-- Contents of `database.json` at the parse level: bytes that
`json.load` parses to a ledger value, or bytes on which it raises
`json.JSONDecodeError`. -/
inductive DbFileContent where
  | parsed (db : Ledger)
  | malformed
deriving DecidableEq

/-- The files the program reads and writes; `none` means the file does
not exist. -/
structure FS where
  databaseFile : Option DbFileContent
  currentInmatesFile : Option (List Inmate)
  metadataFile : Option String
deriving DecidableEq

/-- One observable write performed by the publish phase, recorded in
program order. -/
inductive WriteEvent where
  | writeCurrentInmates (inmates : List Inmate)
  | writeDatabase (db : Ledger)
  | writeMetadata (ts : String)
deriving DecidableEq

/-- Embedding of `load_database` (src/main.py lines 101-105): a missing
file yields `{}`; a file whose contents fail to parse yields `{}`
(the `except (json.JSONDecodeError, FileNotFoundError)` branch);
otherwise the parsed mapping is returned. -/
def load_database (file : Option DbFileContent) : Ledger :=
  match file with
  | none => []
  | some .malformed => []
  | some (.parsed db) => db

/-- Embedding of `save_database` (src/main.py lines 107-108): overwrite
`database.json` with the dump of `db`. -/
def save_database (db : Ledger) (st : FS × List WriteEvent) : FS × List WriteEvent :=
  ({ st.1 with databaseFile := some (.parsed db) }, st.2 ++ [.writeDatabase db])

/-- Embedding of `save_current_inmates` (src/main.py lines 110-111). -/
def save_current_inmates (inmates : List Inmate) (st : FS × List WriteEvent) :
    FS × List WriteEvent :=
  ({ st.1 with currentInmatesFile := some inmates }, st.2 ++ [.writeCurrentInmates inmates])

/-- Embedding of `save_metadata` (src/main.py lines 113-116); `ts` is the
formatted `datetime.utcnow()` string. -/
def save_metadata (ts : String) (st : FS × List WriteEvent) : FS × List WriteEvent :=
  ({ st.1 with metadataFile := some ts }, st.2 ++ [.writeMetadata ts])

/-- The reconcile loop of `__main__` (src/main.py lines 140-146), made
recursive: for each scraped inmate in order, `is_new` is the absence of
its id from the current `master_db`; the record is annotated with
`isNew` and appended to the snapshot list; if new, the annotated record
is inserted into `master_db` and the new-inmate counter incremented.
Returns (`current_inmates_with_status`, final `master_db`,
`new_inmate_count`). -/
def reconcile : List Inmate → Ledger → List Inmate × Ledger × Nat
  | [], master_db => ([], master_db, 0)
  | inmate :: rest, master_db =>
    let is_new := (dbLookup master_db inmate.inmateId).isNone
    let annotated := { inmate with isNew := some is_new }
    let master_db' :=
      if is_new then master_db ++ [(inmate.inmateId, annotated)] else master_db
    let r := reconcile rest master_db'
    (annotated :: r.1, r.2.1, r.2.2 + if is_new then 1 else 0)

/-- Embedding of `__main__` (src/main.py lines 119-155): collect from
both adapters; if the batch is empty, abort without touching any file;
otherwise load the ledger, reconcile, and write the snapshot, the
ledger and the metadata, in that order.  `now` is the formatted current
time.  Returns the final file state and the list of writes performed. -/
def runMain (cp : CrawPage) (sp : SebPage) (fs : FS) (now : String) :
    FS × List WriteEvent :=
  let scraped_inmates := collectAll cp sp
  if scraped_inmates.isEmpty then (fs, [])
  else
    let master_db := load_database fs.databaseFile
    let r := reconcile scraped_inmates master_db
    save_metadata now (save_database r.2.1 (save_current_inmates r.1 (fs, [])))

/-- Rendering of the claim "converts spaces to a single separator" as a
definition, for comparison with `normalize_name`: after upper-casing
and comma removal, every maximal run of spaces (and any leading or
trailing spaces) becomes a single underscore, then the disallowed
characters are removed.  This follows the specification's words, not
the source. -/
def normalize_name_claimed (name : String) : String :=
  String.mk ((joinWith '_'
    (((splitOnChar ' ' ((name.data.map Char.toUpper).filter
      (fun c => !(c == ',')))).filter (fun g => !g.isEmpty)))).filter isAllowedChar)

theorem splitOnChar_ne_nil (s : Char) (l : List Char) : splitOnChar s l ≠ [] := by
  induction l with
  | nil => simp [splitOnChar]
  | cons c cs ih =>
    by_cases hc : c = s
    · simp [splitOnChar, hc]
    · simp only [splitOnChar, if_neg hc]
      cases h : splitOnChar s cs with
      | nil => simp
      | cons g gs => simp

theorem joinWith_splitOnChar (r s : Char) (l : List Char) :
    joinWith r (splitOnChar s l) = l.map (fun c => if c == s then r else c) := by
  induction l with
  | nil => rfl
  | cons c cs ih =>
    by_cases hc : c = s
    · rcases hg : splitOnChar s cs with _ | ⟨g, gs⟩
      · exact absurd hg (splitOnChar_ne_nil s cs)
      · simp only [splitOnChar, if_pos hc, hg, joinWith, List.map_cons, List.nil_append]
        rw [← hg, ih]
        simp [hc]
    · rcases hg : splitOnChar s cs with _ | ⟨g, gs⟩
      · exact absurd hg (splitOnChar_ne_nil s cs)
      · simp only [splitOnChar, if_neg hc, hg, List.map_cons]
        rw [← ih, hg]
        cases gs with
        | nil => simp [joinWith, hc]
        | cons g' gs' => simp [joinWith, hc]

theorem dbLookup_append_left (l : Ledger) {db : Ledger} {k : String} {v : Inmate}
    (h : dbLookup db k = some v) : dbLookup (db ++ l) k = some v := by
  induction db with
  | nil => simp [dbLookup] at h
  | cons p rest ih =>
    obtain ⟨k', v'⟩ := p
    by_cases hk : k' = k
    · simp only [dbLookup, if_pos hk] at h
      simp only [List.cons_append, dbLookup, if_pos hk]
      exact h
    · simp only [dbLookup, if_neg hk] at h
      simp only [List.cons_append, dbLookup, if_neg hk]
      exact ih h

theorem dbLookup_append_self {db : Ledger} {k : String} (v : Inmate)
    (h : dbLookup db k = none) : dbLookup (db ++ [(k, v)]) k = some v := by
  induction db with
  | nil => simp [dbLookup]
  | cons p rest ih =>
    obtain ⟨k', v'⟩ := p
    by_cases hk : k' = k
    · simp only [dbLookup, if_pos hk] at h
      exact Option.noConfusion h
    · simp only [dbLookup, if_neg hk] at h
      simp only [List.cons_append, dbLookup, if_neg hk]
      exact ih h

theorem dbLookup_append_single {db : Ledger} {k0 k : String} {v0 v : Inmate}
    (h : dbLookup (db ++ [(k0, v0)]) k = some v) :
    dbLookup db k = some v ∨ (k0 = k ∧ v0 = v) := by
  induction db with
  | nil =>
    simp only [List.nil_append, dbLookup] at h
    by_cases hk : k0 = k
    · rw [if_pos hk] at h
      exact Or.inr ⟨hk, Option.some.inj h⟩
    · rw [if_neg hk] at h
      cases h
  | cons p rest ih =>
    obtain ⟨k', v'⟩ := p
    by_cases hk : k' = k
    · simp only [List.cons_append, dbLookup, if_pos hk] at h
      exact Or.inl (by simp [dbLookup, if_pos hk, Option.some.inj h])
    · simp only [List.cons_append, dbLookup, if_neg hk] at h
      rcases ih h with h' | h'
      · exact Or.inl (by simp [dbLookup, if_neg hk, h'])
      · exact Or.inr h'

theorem reconcile_mono (batch : List Inmate) :
    ∀ (db : Ledger) {k : String} {v : Inmate},
    dbLookup db k = some v → dbLookup (reconcile batch db).2.1 k = some v := by
  induction batch with
  | nil => intro db k v h; simpa [reconcile] using h
  | cons inmate rest ih =>
    intro db k v h
    simp only [reconcile]
    cases hl : dbLookup db inmate.inmateId with
    | none => simpa [hl] using ih _ (dbLookup_append_left _ h)
    | some w => simpa [hl] using ih _ h

theorem reconcile_lookup_new (batch : List Inmate) :
    ∀ (db : Ledger) {k : String} {v : Inmate},
    dbLookup (reconcile batch db).2.1 k = some v →
    dbLookup db k = some v ∨ (v.isNew = some true ∧ v ∈ (reconcile batch db).1) := by
  induction batch with
  | nil => intro db k v h; exact Or.inl (by simpa [reconcile] using h)
  | cons inmate rest ih =>
    intro db k v h
    cases hl : dbLookup db inmate.inmateId with
    | some w =>
      simp only [reconcile, hl, Option.isNone_some, Bool.false_eq_true, if_false] at h ⊢
      rcases ih _ h with h1 | ⟨h2, h3⟩
      · exact Or.inl h1
      · exact Or.inr ⟨h2, List.mem_cons_of_mem _ h3⟩
    | none =>
      simp only [reconcile, hl, Option.isNone_none, if_true] at h ⊢
      rcases ih _ h with h1 | ⟨h2, h3⟩
      · rcases dbLookup_append_single h1 with h4 | ⟨h4, h5⟩
        · exact Or.inl h4
        · exact Or.inr ⟨by rw [← h5], by rw [← h5]; exact List.mem_cons_self _ _⟩
      · exact Or.inr ⟨h2, List.mem_cons_of_mem _ h3⟩

theorem reconcile_all_isNew_true (batch : List Inmate) :
    ∀ (db : Ledger), (∀ p ∈ db, p.2.isNew = some true) →
    ∀ p ∈ (reconcile batch db).2.1, p.2.isNew = some true := by
  induction batch with
  | nil => intro db h p hp; exact h p (by simpa [reconcile] using hp)
  | cons inmate rest ih =>
    intro db h p hp
    cases hl : dbLookup db inmate.inmateId with
    | some w =>
      simp only [reconcile, hl, Option.isNone_some, Bool.false_eq_true, if_false] at hp
      exact ih db h p hp
    | none =>
      simp only [reconcile, hl, Option.isNone_none, if_true] at hp
      refine ih _ ?_ p hp
      intro q hq
      rcases List.mem_append.mp hq with hq | hq
      · exact h q hq
      · rw [List.mem_singleton.mp hq]

theorem reconcile_append (xs ys : List Inmate) :
    ∀ db : Ledger,
    reconcile (xs ++ ys) db =
      ((reconcile xs db).1 ++ (reconcile ys (reconcile xs db).2.1).1,
       (reconcile ys (reconcile xs db).2.1).2.1,
       (reconcile xs db).2.2 + (reconcile ys (reconcile xs db).2.1).2.2) := by
  induction xs with
  | nil => intro db; simp [reconcile]
  | cons x xs ih =>
    intro db
    cases hl : dbLookup db x.inmateId with
    | some w =>
      simp only [List.cons_append, reconcile, hl, Option.isNone_some,
        Bool.false_eq_true, if_false]
      simp [Prod.ext_iff, ih]
    | none =>
      simp only [List.cons_append, reconcile, hl, Option.isNone_none, if_true]
      simp [Prod.ext_iff, ih]
      omega

theorem reconcile_fst_length (batch : List Inmate) :
    ∀ db : Ledger, (reconcile batch db).1.length = batch.length := by
  induction batch with
  | nil => intro db; rfl
  | cons x xs ih => intro db; simp [reconcile, ih]

theorem getElem_append_cons_length {α : Type} (l1 : List α) (x : α) (l2 : List α) :
    (l1 ++ x :: l2)[l1.length]? = some x := by
  induction l1 with
  | nil => simp
  | cons a t ih => simpa using ih

/-- C1: If the collected batch is empty (every source failed or returned no
records), the run does not commit: the ledger file, the snapshot file and the
run-metadata file are left exactly as they were before the run, and no write
is performed. -/
theorem runMain_empty_batch_preserves_state (cp : CrawPage) (sp : SebPage)
    (fs : FS) (now : String) (h : collectAll cp sp = []) :
    runMain cp sp fs now = (fs, []) := by
  simp [runMain, h]

/-- Witness for C1: both adapters time out against a file state holding a
corrupt ledger; nothing changes. -/
theorem runMain_empty_batch_preserves_state_witness :
    runMain .timeout .timeout ⟨some .malformed, none, none⟩
      "July 04, 2024 at 01:00 PM UTC" = (⟨some .malformed, none, none⟩, []) :=
  runMain_empty_batch_preserves_state _ _ _ _ rfl

/-- C3: Every key-value pair of the input ledger is present unchanged in the
ledger produced by reconciliation; no entry is ever removed. -/
theorem reconcile_superset_of_input_ledger (batch : List Inmate) (db : Ledger)
    (k : String) (v : Inmate) (h : dbLookup db k = some v) :
    dbLookup (reconcile batch db).2.1 k = some v :=
  reconcile_mono batch db h

/-- Witness for C3: a pre-existing ledger entry survives reconciling a batch
with a different key. -/
theorem reconcile_superset_of_input_ledger_witness :
    dbLookup (reconcile [⟨"B_sebastian", "B", "No Image", "sebastian", none⟩]
      [("A_crawford", ⟨"A_crawford", "A", "No Image", "crawford", some true⟩)]).2.1
      "A_crawford" = some ⟨"A_crawford", "A", "No Image", "crawford", some true⟩ :=
  reconcile_superset_of_input_ledger _ _ _ _ (by decide)

/-- C5: Loading the ledger never fails the run: a missing ledger file yields
the empty mapping, and a ledger file whose contents fail to parse also yields
the empty mapping instead of propagating the error (`load_database` is a
total function of the file state). -/
theorem load_database_missing_or_corrupt_yields_empty (file : Option DbFileContent) :
    (file = none → load_database file = []) ∧
    (file = some .malformed → load_database file = []) := by
  constructor <;> (intro h; simp [h, load_database])

/-- Witness for C5 at both failure states of the ledger file. -/
theorem load_database_missing_or_corrupt_yields_empty_witness :
    load_database none = [] ∧ load_database (some .malformed) = [] :=
  ⟨(load_database_missing_or_corrupt_yields_empty none).1 rfl,
   (load_database_missing_or_corrupt_yields_empty (some .malformed)).2 rfl⟩

/-- C6: Ledger persistence round-trips: saving any mapping to the ledger file
and loading it back returns the same mapping. -/
theorem load_database_save_database_roundtrip (db : Ledger)
    (st : FS × List WriteEvent) :
    load_database ((save_database db st).1.databaseFile) = db := rfl

/-- C7: Collection invokes the adapters in a fixed order (Crawford, then
Sebastian) and the batch is the source-major concatenation of their records;
a timed-out or erroring adapter contributes an empty slice and never prevents
collection of the other adapter's records. -/
theorem collectAll_source_major_failure_isolated (cp : CrawPage) (sp : SebPage) :
    collectAll cp sp =
      scrape_crawford_county_playwright cp ++ scrape_sebastian_county_playwright sp ∧
    scrape_crawford_county_playwright .timeout = [] ∧
    scrape_crawford_county_playwright .error = [] ∧
    scrape_sebastian_county_playwright .timeout = [] ∧
    scrape_sebastian_county_playwright .error = [] ∧
    collectAll .timeout sp = scrape_sebastian_county_playwright sp ∧
    collectAll .error sp = scrape_sebastian_county_playwright sp ∧
    collectAll cp .timeout = scrape_crawford_county_playwright cp ∧
    collectAll cp .error = scrape_crawford_county_playwright cp := by
  refine ⟨rfl, rfl, rfl, rfl, rfl, ?_, ?_, ?_, ?_⟩ <;>
    simp [collectAll, scrape_crawford_county_playwright,
      scrape_sebastian_county_playwright]

/-- Counterexample to C4 as stated: on a name with two consecutive spaces the
code produces two consecutive separators, not the single separator the claim
describes (`normalize_name_claimed` renders the claim's words). -/
theorem normalize_name_consecutive_spaces_counterexample :
    normalize_name "A  B" = "A__B" ∧ normalize_name_claimed "A  B" = "A_B" ∧
    normalize_name "A  B" ≠ normalize_name_claimed "A  B" := by
  refine ⟨by decide, by decide, by decide⟩

/-- C4 (amended): the identity key is computed by upper-casing the name,
stripping commas, converting EACH space to one separator (so consecutive
spaces yield consecutive separators), removing every character outside
`[A-Z0-9_]`, then appending an underscore and the source id. -/
theorem generate_inmate_id_each_space_separator (name county : String) :
    generate_inmate_id name county =
      String.mk ((joinWith '_' (splitOnChar ' '
        ((name.data.map Char.toUpper).filter (fun c => !(c == ','))))).filter
        isAllowedChar) ++ "_" ++ county := by
  unfold generate_inmate_id normalize_name
  rw [joinWith_splitOnChar]

/-- Counterexample to C2 as stated: a batch containing the same record twice,
reconciled against an empty ledger.  The identity key is absent from the
ledger loaded at the start of the run, yet the second occurrence is marked
`isNew = false`, because the loop consults the ledger as already updated by
the first occurrence. -/
theorem reconcile_isNew_start_ledger_counterexample :
    dbLookup ([] : Ledger) "JOHN_SMITH_crawford" = none ∧
    ((reconcile [⟨"JOHN_SMITH_crawford", "JOHN SMITH", "No Image", "crawford", none⟩,
                 ⟨"JOHN_SMITH_crawford", "JOHN SMITH", "No Image", "crawford", none⟩]
        ([] : Ledger)).1).map Inmate.isNew = [some true, some false] :=
  ⟨rfl, by decide⟩

/-- C2 (amended): for every record of the batch, `isNew` is true iff its
identity key is absent from the ledger as already updated by the preceding
records of the batch (for batches with pairwise distinct keys this coincides
with absence from the start-of-run ledger); a record whose key is absent from
that running ledger is inserted (annotated) into the updated ledger, and a
record whose key is present leaves that ledger entry untouched. -/
theorem reconcile_isNew_running_ledger (db : Ledger) (pre : List Inmate)
    (r : Inmate) (post : List Inmate) :
    ((reconcile (pre ++ r :: post) db).1)[pre.length]? =
      some { r with isNew := some (dbLookup (reconcile pre db).2.1 r.inmateId).isNone } ∧
    (dbLookup (reconcile pre db).2.1 r.inmateId = none →
      dbLookup (reconcile (pre ++ r :: post) db).2.1 r.inmateId =
        some { r with isNew := some true }) ∧
    (∀ v, dbLookup (reconcile pre db).2.1 r.inmateId = some v →
      dbLookup (reconcile (pre ++ r :: post) db).2.1 r.inmateId = some v) := by
  have hA := reconcile_append pre (r :: post) db
  refine ⟨?_, ?_, ?_⟩
  · have h1 : (reconcile (pre ++ r :: post) db).1 =
        (reconcile pre db).1 ++ (reconcile (r :: post) (reconcile pre db).2.1).1 := by
      rw [hA]
    rw [h1]
    cases hl : dbLookup (reconcile pre db).2.1 r.inmateId with
    | none =>
      have h2 : (reconcile (r :: post) (reconcile pre db).2.1).1 =
          { r with isNew := some true } ::
          (reconcile post ((reconcile pre db).2.1 ++
            [(r.inmateId, { r with isNew := some true })])).1 := by
        simp [reconcile, hl]
      rw [h2, ← reconcile_fst_length pre db]
      exact getElem_append_cons_length _ _ _
    | some w =>
      have h2 : (reconcile (r :: post) (reconcile pre db).2.1).1 =
          { r with isNew := some false } ::
          (reconcile post (reconcile pre db).2.1).1 := by
        simp [reconcile, hl]
      rw [h2, ← reconcile_fst_length pre db]
      exact getElem_append_cons_length _ _ _
  · intro h
    have h1 : (reconcile (pre ++ r :: post) db).2.1 =
        (reconcile (r :: post) (reconcile pre db).2.1).2.1 := by
      rw [hA]
    have h2 : (reconcile (r :: post) (reconcile pre db).2.1).2.1 =
        (reconcile post ((reconcile pre db).2.1 ++
          [(r.inmateId, { r with isNew := some true })])).2.1 := by
      simp [reconcile, h]
    rw [h1, h2]
    exact reconcile_mono post _ (dbLookup_append_self _ h)
  · intro v hv
    have h1 : (reconcile (pre ++ r :: post) db).2.1 =
        (reconcile (r :: post) (reconcile pre db).2.1).2.1 := by
      rw [hA]
    have h2 : (reconcile (r :: post) (reconcile pre db).2.1).2.1 =
        (reconcile post (reconcile pre db).2.1).2.1 := by
      simp [reconcile, hv]
    rw [h1, h2]
    exact reconcile_mono post _ hv

/-- Witness for the amended C2: a single new record is inserted, annotated
with `isNew = true`. -/
theorem reconcile_isNew_running_ledger_witness :
    dbLookup (reconcile ([] ++ (⟨"B_crawford", "B", "No Image", "crawford", none⟩ : Inmate) :: []) ([] : Ledger)).2.1
      "B_crawford" = some ⟨"B_crawford", "B", "No Image", "crawford", some true⟩ := by
  have h := (reconcile_isNew_running_ledger [] []
    ⟨"B_crawford", "B", "No Image", "crawford", none⟩ []).2.1 rfl
  exact h.trans (by decide)

/-- C8: Publishing happens only when the batch is non-empty (the commit
decision), and then writes exactly three files in this order: the snapshot
file with the annotated batch, the ledger file with the updated ledger, and
the run-metadata file with the current timestamp. -/
theorem runMain_publish_only_on_commit_in_order (cp : CrawPage) (sp : SebPage)
    (fs : FS) (now : String) :
    (collectAll cp sp = [] → (runMain cp sp fs now).2 = []) ∧
    (collectAll cp sp ≠ [] →
      (runMain cp sp fs now).2 =
        [WriteEvent.writeCurrentInmates
           (reconcile (collectAll cp sp) (load_database fs.databaseFile)).1,
         WriteEvent.writeDatabase
           (reconcile (collectAll cp sp) (load_database fs.databaseFile)).2.1,
         WriteEvent.writeMetadata now]) := by
  constructor
  · intro h
    simp [runMain, h]
  · intro h
    have he : (collectAll cp sp).isEmpty = false := by
      simpa [List.isEmpty_iff] using h
    simp [runMain, he, save_current_inmates, save_database, save_metadata]

/-- Witness for C8: one Crawford record, Sebastian timed out; the run writes
snapshot, ledger, metadata, in that order. -/
theorem runMain_publish_only_on_commit_in_order_witness :
    (runMain (.loaded [⟨some ⟨"Smith, John", some ⟨"/roster/9"⟩⟩⟩]) .timeout
      ⟨none, none, none⟩ "T").2 =
      [WriteEvent.writeCurrentInmates
         [⟨"SMITH_JOHN_crawford", "Smith, John",
           "https://inmates.crawfordcountysheriff.org/photos/9.jpg", "crawford", some true⟩],
       WriteEvent.writeDatabase
         [("SMITH_JOHN_crawford",
           ⟨"SMITH_JOHN_crawford", "Smith, John",
            "https://inmates.crawfordcountysheriff.org/photos/9.jpg", "crawford", some true⟩)],
       WriteEvent.writeMetadata "T"] := by
  have h := (runMain_publish_only_on_commit_in_order
    (.loaded [⟨some ⟨"Smith, John", some ⟨"/roster/9"⟩⟩⟩]) .timeout
    ⟨none, none, none⟩ "T").2 (by decide)
  exact h.trans (by decide)

/-- C9: every entry inserted into the ledger by a committing run is the
annotated snapshot record itself with `isNew = true` (an entry found under a
key that was absent from the loaded ledger carries `isNew = true` and is a
member of the annotated batch); consequently, if every entry of the loaded
ledger carries `isNew = true`, so does every entry of the updated ledger, so
the stale flag persists across later runs. -/
theorem reconcile_ledger_entries_isNew_true (batch : List Inmate) (db : Ledger) :
    (∀ k v, dbLookup db k = none → dbLookup (reconcile batch db).2.1 k = some v →
      v.isNew = some true ∧ v ∈ (reconcile batch db).1) ∧
    ((∀ p ∈ db, p.2.isNew = some true) →
      ∀ p ∈ (reconcile batch db).2.1, p.2.isNew = some true) := by
  constructor
  · intro k v h0 h1
    rcases reconcile_lookup_new batch db h1 with h2 | h2
    · rw [h0] at h2
      exact Option.noConfusion h2
    · exact h2
  · exact reconcile_all_isNew_true batch db

/-- Witness for C9: a freshly inserted ledger entry carries `isNew = true`
and is the annotated snapshot record. -/
theorem reconcile_ledger_entries_isNew_true_witness :
    (⟨"B_crawford", "B", "No Image", "crawford", some true⟩ : Inmate).isNew = some true ∧
    (⟨"B_crawford", "B", "No Image", "crawford", some true⟩ : Inmate) ∈
      (reconcile [⟨"B_crawford", "B", "No Image", "crawford", none⟩] ([] : Ledger)).1 :=
  (reconcile_ledger_entries_isNew_true
    [⟨"B_crawford", "B", "No Image", "crawford", none⟩] []).1
    "B_crawford" _ rfl (by decide)

theorem scrape_crawford_mem (p : CrawPage) (r : Inmate)
    (h : r ∈ scrape_crawford_county_playwright p) :
    r.county = "crawford" ∧ r.inmateId = generate_inmate_id r.name r.county := by
  cases p with
  | timeout => simp [scrape_crawford_county_playwright] at h
  | error => simp [scrape_crawford_county_playwright] at h
  | loaded blocks =>
    simp only [scrape_crawford_county_playwright] at h
    by_cases he : blocks.isEmpty
    · simp [he] at h
    · simp only [he, if_false, Bool.false_eq_true] at h
      obtain ⟨b, hb, hf⟩ := List.mem_filterMap.mp h
      obtain ⟨nt⟩ := b
      cases nt with
      | none => simp at hf
      | some tag =>
        obtain ⟨text, anchor⟩ := tag
        cases anchor with
        | none => simp at hf
        | some a =>
          simp only [Option.some.injEq] at hf
          rw [← hf]
          exact ⟨rfl, rfl⟩

theorem scrape_sebastian_mem (p : SebPage) (r : Inmate)
    (h : r ∈ scrape_sebastian_county_playwright p) :
    r.county = "sebastian" ∧ r.inmateId = generate_inmate_id r.name r.county := by
  cases p with
  | timeout => simp [scrape_sebastian_county_playwright] at h
  | error => simp [scrape_sebastian_county_playwright] at h
  | loaded rows =>
    simp only [scrape_sebastian_county_playwright] at h
    by_cases he : rows.isEmpty
    · simp [he] at h
    · simp only [he, if_false, Bool.false_eq_true] at h
      obtain ⟨b, hb, hf⟩ := List.mem_filterMap.mp h
      obtain ⟨nc, img⟩ := b
      cases nc with
      | none => simp at hf
      | some nm =>
        simp only [Option.some.injEq] at hf
        rw [← hf]
        exact ⟨rfl, rfl⟩

/-- C10: every record emitted by an adapter is internally consistent: its
`county` field is that adapter's fixed source id, and its `inmateId` field is
the identity key computed from its own `name` and `county` fields; hence the
same holds across every collected batch. -/
theorem scraped_records_internally_consistent (cp : CrawPage) (sp : SebPage)
    (r : Inmate) :
    (r ∈ scrape_crawford_county_playwright cp →
      r.county = "crawford" ∧ r.inmateId = generate_inmate_id r.name r.county) ∧
    (r ∈ scrape_sebastian_county_playwright sp →
      r.county = "sebastian" ∧ r.inmateId = generate_inmate_id r.name r.county) ∧
    (r ∈ collectAll cp sp →
      (r.county = "crawford" ∨ r.county = "sebastian") ∧
      r.inmateId = generate_inmate_id r.name r.county) := by
  refine ⟨scrape_crawford_mem cp r, scrape_sebastian_mem sp r, ?_⟩
  intro h
  rcases List.mem_append.mp h with h | h
  · obtain ⟨h1, h2⟩ := scrape_crawford_mem cp r h
    exact ⟨Or.inl h1, h2⟩
  · obtain ⟨h1, h2⟩ := scrape_sebastian_mem sp r h
    exact ⟨Or.inr h1, h2⟩

/-- Witness for C10: the record extracted from one concrete Crawford block is
internally consistent. -/
theorem scraped_records_internally_consistent_witness :
    (⟨"SMITH_JOHN_crawford", "Smith, John",
      "https://inmates.crawfordcountysheriff.org/photos/9.jpg", "crawford",
      none⟩ : Inmate).county = "crawford" ∧
    (⟨"SMITH_JOHN_crawford", "Smith, John",
      "https://inmates.crawfordcountysheriff.org/photos/9.jpg", "crawford",
      none⟩ : Inmate).inmateId =
      generate_inmate_id "Smith, John" "crawford" := by
  have h := (scraped_records_internally_consistent
    (.loaded [⟨some ⟨"Smith, John", some ⟨"/roster/9"⟩⟩⟩]) (.loaded [])
    ⟨"SMITH_JOHN_crawford", "Smith, John",
     "https://inmates.crawfordcountysheriff.org/photos/9.jpg", "crawford",
     none⟩).1 (by decide)
  exact ⟨h.1, h.2⟩
